import Mathlib

/-!
Verification development for the AutoCodeGuard orchestration core.

This file gives a shallow embedding, in Lean 4, of the repository-analysis
pipeline: the per-language analyzers (`src/analyzers/python_analyzer.py`,
`javascript_analyzer.py`, `html_analyzer.py`, `css_analyzer.py`,
`java_analyzer.py`) and the walk-and-dispatch orchestrator
(`src/repo_analyzer.py`), together with theorems about their behaviour.

Modelling conventions:
* Text is a list of characters (`Str`).  Python string primitives used by
  the code (`str.count`, `str.strip`, `str.splitlines`, `str.endswith`)
  are embedded as executable Lean functions with Python semantics;
  `strip` uses the ASCII whitespace set and `splitlines` the line-break
  set Python documents (with a CR LF pair consumed as one break).
* A subprocess invocation (`subprocess.run`) either completes with a
  captured stdout, stderr and exit code (`ToolOutcome.completed`) or
  raises an exception carrying a message (`ToolOutcome.raised`); which of
  the two happens for a given target file is decided by an `Oracle`
  supplied as input, standing for the external world.
* A Python function that may let an exception escape is embedded with
  result type `Except Str _`; `.error` marks an exception propagating to
  the caller.
* The callbacks `status_callback` / `log_callback` are modelled by an
  emitted event trace, one constructor per call site in the source.
* File paths are taken relative to the workspace root; the opaque
  temporary-directory prefix is dropped (the code only ever applies
  suffix tests and `os.path.relpath` to paths, neither of which is
  affected by the prefix).
-/

set_option autoImplicit false

namespace AutoCodeGuard

/-- Text, modelled as a list of characters. -/
abbrev Str := List Char

/-! ### Python string primitives -/

/-- Worker for `countSub`, structurally recursive on a fuel bound so
that the kernel can evaluate it.  At a match the scan advances past the
whole matched occurrence (Python counts non-overlapping occurrences,
scanning left to right). -/
def countSubAux (pat : Str) : Nat → Str → Nat
  | 0, _ => 0
  | _ + 1, [] => 0
  | fuel + 1, c :: rest =>
    if pat.isPrefixOf (c :: rest) ∧ pat ≠ [] then
      1 + countSubAux pat fuel (List.drop (pat.length - 1) rest)
    else
      countSubAux pat fuel rest

/-- Python `str.count` for a non-empty pattern: the number of
non-overlapping occurrences, scanning left to right.  The fuel
`s.length` is always sufficient: every step consumes at least one
character. -/
def countSub (pat s : Str) : Nat := countSubAux pat s.length s

/-- The ASCII whitespace characters stripped by Python `str.strip()`. -/
def isPySpace (c : Char) : Bool :=
  c == ' ' || c == '\t' || c == '\n' || c == '\r' || c == '\x0b' || c == '\x0c'

/-- Python `str.strip()`: drop leading and trailing whitespace. -/
def pyStrip (s : Str) : Str :=
  ((s.dropWhile isPySpace).reverse.dropWhile isPySpace).reverse

/-- The line-break characters recognised by Python `str.splitlines`. -/
def lineBreakChars : List Char :=
  ['\n', '\r', '\x0b', '\x0c', '\x1c', '\x1d', '\x1e', '\x85', ' ', ' ']

/-- Worker for `splitlines`: `cur` holds the characters of the current
line in reverse. -/
def splitlinesAux : Str → Str → List Str
  | cur, [] => if cur = [] then [] else [cur.reverse]
  | cur, '\r' :: '\n' :: rest => cur.reverse :: splitlinesAux [] rest
  | cur, c :: rest =>
    if c ∈ lineBreakChars then cur.reverse :: splitlinesAux [] rest
    else splitlinesAux (c :: cur) rest

/-- Python `str.splitlines()`. -/
def splitlines (s : Str) : List Str := splitlinesAux [] s

/-- `startsWith pre s` is true when `pre` is a prefix of `s`
(character-by-character comparison). -/
def startsWith : Str → Str → Bool
  | [], _ => true
  | _ :: _, [] => false
  | a :: as, b :: bs => a == b && startsWith as bs

/-- Python `str.endswith`: `suf` is a suffix of `s`. -/
def endsWith (suf s : Str) : Bool := startsWith suf.reverse s.reverse

/-! ### Tool invocations and results -/

/-- Captured outcome of a subprocess that ran to completion. -/
structure ProcOutcome where
  stdout : Str
  stderr : Str
  returncode : Int
  deriving DecidableEq

/-- What happened when the code reached a `subprocess.run` call site:
either the process completed, or the call raised an exception (for
example `FileNotFoundError` when the executable is missing). -/
inductive ToolOutcome where
  | completed (p : ProcOutcome)
  | raised (msg : Str)
  deriving DecidableEq

/-- One per-file analysis record, as built by the analyzers.  The Python
and JavaScript analyzers set the optional `rating` field; the HTML, CSS
and Java analyzers return dictionaries without it. -/
structure FileResult where
  file : Str
  issues : Str
  error_count : Nat
  warning_count : Nat
  rating : Option Str
  deriving DecidableEq

/-- The external tools the analyzers invoke. -/
inductive Tool where
  | pylint | flake8 | eslint | htmlhint | stylelint | checkstyle
  deriving DecidableEq

/-- A record that a tool invocation was attempted on a target file. -/
structure ToolCall where
  tool : Tool
  target : Str
  deriving DecidableEq

/-- Event trace entries: one constructor per `status_callback` /
`log_callback` call site in the source. -/
inductive Event where
  | cloningLog (url : Str)
  | cloneErrorLog (msg : Str)
  | cloneCompleteStatus
  | skipConfigLog (name : Str)
  | progressStatus (processed total : Nat) (relPath : Str)
  | processingLog (relPath : Str)
  | skipMinifiedLog (relPath : Str)
  | pyRunningLog
  | pyDoneLog (relPath : Str)
  | pyFailLog (msg : Str)
  | jsSkipMinifiedLog (filePath : Str)
  | jsDoneLog (relPath : Str)
  | htmlRunningLog
  | htmlDoneLog (relPath : Str)
  | htmlFailLog (msg : Str)
  | cssRunningLog
  | cssDoneLog (relPath : Str)
  | cssFailLog (msg : Str)
  | javaRunningLog
  | javaDoneLog (relPath : Str)
  | javaFailLog (msg : Str)
  | cleanupLog
  deriving DecidableEq

/-- What one analyzer call produced: the events it logged, the tool
invocations it attempted, and either a returned `FileResult` or an
exception propagating to the caller. -/
structure AnalyzerOut where
  events : List Event
  calls : List ToolCall
  result : Except Str FileResult

/-! ### String constants from the source -/

def ratingGood : Str := "Good".toList
def ratingNeedsImprovement : Str := "Needs Improvement".toList
def ratingPoor : Str := "Poor".toList
def ratingError : Str := "Error".toList
def errorLower : Str := "error".toList
def errorUpper : Str := "Error".toList
def warningLower : Str := "warning".toList
def warningUpper : Str := "Warning".toList
def litERROR : Str := "ERROR".toList
def litWARN : Str := "WARN".toList
def analysisFailedText : Str := "Analysis failed: ".toList
def pylintIssuesHeader : Str := "Pylint Issues:\n".toList
def flake8IssuesHeader : Str := "\n\nFlake8 Issues:\n".toList
def minifiedSkippedText : Str := "Minified files are skipped.".toList
def pyExt : Str := ".py".toList
def jsExt : Str := ".js".toList
def minJsExt : Str := ".min.js".toList
def htmlExt : Str := ".html".toList
def cssExt : Str := ".css".toList
def javaExt : Str := ".java".toList

/-- The linter configuration artifact names recognised by the
orchestrator (`repo_analyzer.py`, skip set and `create_linter_configs`). -/
def configNames : List Str :=
  [".pylintrc".toList, "eslintconfig.js".toList,
   "htmlhint.config.js".toList, "stylelint.config.js".toList]

deriving instance DecidableEq for Except

/-! ### Language analyzers

Each `analyze_<lang>` below is the embedding of the function of the same
name in `src/analyzers/<lang>_analyzer.py`.  The `ToolOutcome` arguments
stand for what the corresponding `subprocess.run` call site did. -/

/-- The record built by `analyze_python`'s `except` clause. -/
def pyFailResult (rel_path msg : Str) : FileResult :=
  { file := rel_path
    issues := analysisFailedText ++ msg
    error_count := 1
    warning_count := 0
    rating := some ratingError }

/-- The local `pylint_issues` of `analyze_python`: stdout when Pylint
exited with code 0 or 1, stderr otherwise. -/
def pylint_issues (pl : ProcOutcome) : Str :=
  if pl.returncode = 0 ∨ pl.returncode = 1 then pl.stdout else pl.stderr

/-- The local `pylint_error_count` of `analyze_python`. -/
def pylint_error_count (pl : ProcOutcome) : Nat :=
  countSub errorLower (pylint_issues pl) + countSub errorUpper (pylint_issues pl)

/-- The local `pylint_warning_count` of `analyze_python`. -/
def pylint_warning_count (pl : ProcOutcome) : Nat :=
  countSub warningLower (pylint_issues pl) + countSub warningUpper (pylint_issues pl)

/-- The local `flake8_issues` of `analyze_python`: stripped stdout. -/
def flake8_issues (f8 : ProcOutcome) : Str := pyStrip f8.stdout

/-- The local `flake8_error_count` of `analyze_python`: the number of
lines of the stripped stdout when it is non-empty, else 0. -/
def flake8_error_count (f8 : ProcOutcome) : Nat :=
  if flake8_issues f8 ≠ [] then (splitlines (flake8_issues f8)).length else 0

/-- The rating computation of `analyze_python`: `Good` / `Needs
Improvement` by the zero test, then overridden to `Poor` above five
errors. -/
def pythonRating (total_error_count total_warning_count : Nat) : Str :=
  let rating0 :=
    if total_error_count = 0 ∧ total_warning_count = 0 then ratingGood
    else ratingNeedsImprovement
  if total_error_count > 5 then ratingPoor else rating0

/-- Embedding of `analyze_python` (`src/analyzers/python_analyzer.py`).
The whole body is wrapped in `try`, so an exception at either
`subprocess.run` site is converted into `pyFailResult`; if Pylint's
invocation raises, the Flake8 invocation is never attempted. -/
def analyze_python (file_path rel_path : Str)
    (pylintRun flake8Run : ToolOutcome) : AnalyzerOut :=
  match pylintRun with
  | .raised msg =>
    { events := [.pyRunningLog, .pyFailLog msg]
      calls := [⟨.pylint, file_path⟩]
      result := .ok (pyFailResult rel_path msg) }
  | .completed pl =>
    match flake8Run with
    | .raised msg =>
      { events := [.pyRunningLog, .pyFailLog msg]
        calls := [⟨.pylint, file_path⟩, ⟨.flake8, file_path⟩]
        result := .ok (pyFailResult rel_path msg) }
    | .completed f8 =>
      let flake8_warning_count := 0
      let total_error_count := pylint_error_count pl + flake8_error_count f8
      let total_warning_count := pylint_warning_count pl + flake8_warning_count
      { events := [.pyRunningLog, .pyDoneLog rel_path]
        calls := [⟨.pylint, file_path⟩, ⟨.flake8, file_path⟩]
        result := .ok
          { file := rel_path
            issues := pylintIssuesHeader ++ pylint_issues pl ++
              flake8IssuesHeader ++ flake8_issues f8
            error_count := total_error_count
            warning_count := total_warning_count
            rating := some (pythonRating total_error_count total_warning_count) } }

/-- Embedding of `analyze_javascript`
(`src/analyzers/javascript_analyzer.py`).  Unlike its four siblings this
function has no `try`/`except`: an exception at the `subprocess.run`
site propagates to the caller (`result := .error msg`). -/
def analyze_javascript (file_path rel_path : Str)
    (eslintRun : ToolOutcome) : AnalyzerOut :=
  if endsWith minJsExt file_path then
    { events := [.jsSkipMinifiedLog file_path]
      calls := []
      result := .ok
        { file := rel_path
          issues := minifiedSkippedText
          error_count := 0
          warning_count := 0
          rating := some ratingGood } }
  else
    match eslintRun with
    | .raised msg =>
      { events := []
        calls := [⟨.eslint, file_path⟩]
        result := .error msg }
    | .completed p =>
      let eslint_issues := pyStrip p.stdout
      let error_count :=
        if eslint_issues ≠ [] then (splitlines eslint_issues).length else 0
      let warning_count := 0
      let rating0 := if error_count = 0 then ratingGood else ratingNeedsImprovement
      let rating := if error_count > 5 then ratingPoor else rating0
      { events := [.jsDoneLog rel_path]
        calls := [⟨.eslint, file_path⟩]
        result := .ok
          { file := rel_path
            issues := eslint_issues
            error_count := error_count
            warning_count := warning_count
            rating := some rating } }

/-- Embedding of `analyze_html` (`src/analyzers/html_analyzer.py`). -/
def analyze_html (file_path rel_path : Str)
    (htmlhintRun : ToolOutcome) : AnalyzerOut :=
  match htmlhintRun with
  | .raised msg =>
    { events := [.htmlRunningLog, .htmlFailLog msg]
      calls := [⟨.htmlhint, file_path⟩]
      result := .ok
        { file := rel_path
          issues := analysisFailedText ++ msg
          error_count := 1
          warning_count := 0
          rating := none } }
  | .completed p =>
    let issues :=
      if p.returncode = 0 ∨ p.returncode = 1 then p.stdout else p.stderr
    { events := [.htmlRunningLog, .htmlDoneLog rel_path]
      calls := [⟨.htmlhint, file_path⟩]
      result := .ok
        { file := rel_path
          issues := issues
          error_count := issues.count '✗'
          warning_count := issues.count '⚠'
          rating := none } }

/-- Embedding of `analyze_css` (`src/analyzers/css_analyzer.py`). -/
def analyze_css (file_path rel_path : Str)
    (stylelintRun : ToolOutcome) : AnalyzerOut :=
  match stylelintRun with
  | .raised msg =>
    { events := [.cssRunningLog, .cssFailLog msg]
      calls := [⟨.stylelint, file_path⟩]
      result := .ok
        { file := rel_path
          issues := analysisFailedText ++ msg
          error_count := 1
          warning_count := 0
          rating := none } }
  | .completed p =>
    let issues :=
      if p.returncode = 0 ∨ p.returncode = 1 then p.stdout else p.stderr
    { events := [.cssRunningLog, .cssDoneLog rel_path]
      calls := [⟨.stylelint, file_path⟩]
      result := .ok
        { file := rel_path
          issues := issues
          error_count := issues.count '✖'
          warning_count := issues.count '⚠'
          rating := none } }

/-- Embedding of `analyze_java` (`src/analyzers/java_analyzer.py`).
Note the asymmetric exit-code policy: only exit code `0` selects
stdout. -/
def analyze_java (file_path rel_path : Str)
    (checkstyleRun : ToolOutcome) : AnalyzerOut :=
  match checkstyleRun with
  | .raised msg =>
    { events := [.javaRunningLog, .javaFailLog msg]
      calls := [⟨.checkstyle, file_path⟩]
      result := .ok
        { file := rel_path
          issues := analysisFailedText ++ msg
          error_count := 1
          warning_count := 0
          rating := none } }
  | .completed p =>
    let issues := if p.returncode = 0 then p.stdout else p.stderr
    { events := [.javaRunningLog, .javaDoneLog rel_path]
      calls := [⟨.checkstyle, file_path⟩]
      result := .ok
        { file := rel_path
          issues := issues
          error_count := countSub litERROR issues
          warning_count := countSub litWARN issues
          rating := none } }

/-! ### The walk-and-dispatch orchestrator (`src/repo_analyzer.py`) -/

/-- One filesystem entry produced by `os.walk`: the directory part of its
workspace-relative path (with trailing separator, `[]` at the root) and
its base name.  The flattened `for root, _, files / for file in files`
iteration order of `os.walk` is the order of the entry list. -/
structure Entry where
  dir : Str
  name : Str
  deriving DecidableEq

/-- `os.path.relpath(os.path.join(root, file), temp_dir)`. -/
def relPathOf (e : Entry) : Str := e.dir ++ e.name

/-- The external world's answer for each tool invocation the run may
attempt, per target file. -/
structure Oracle where
  pylintRun : Str → ToolOutcome
  flake8Run : Str → ToolOutcome
  eslintRun : Str → ToolOutcome
  htmlhintRun : Str → ToolOutcome
  stylelintRun : Str → ToolOutcome
  checkstyleRun : Str → ToolOutcome

/-- Embedding of `create_linter_configs` (`src/repo_analyzer.py`): for
each of the four config names whose source file exists in the built-in
`config` directory (`builtin`), copy it to the workspace root —
overwriting a same-named root entry if one exists, otherwise creating a
new root entry. -/
def create_linter_configs (builtin : List Str) (files : List Entry) : List Entry :=
  configNames.foldl
    (fun fs name =>
      if name ∈ builtin then
        if fs.any (fun e => e.dir.isEmpty && e.name == name) then fs
        else fs ++ [⟨[], name⟩]
      else fs)
    files

/-- Mutable state of the walk loop in `analyze_repo`: the processed-file
counter, the five per-language result lists of the `results` dict, and
the accumulated event trace and tool invocations. -/
structure WalkState where
  processed : Nat
  pythonResults : List FileResult
  javascriptResults : List FileResult
  htmlResults : List FileResult
  cssResults : List FileResult
  javaResults : List FileResult
  events : List Event
  calls : List ToolCall
  deriving DecidableEq

/-- Record one analyzer call's effect on the walk state: its events and
tool invocations always happen; if it returned a result, `push` appends
it to the owning language's list, and if it raised, the exception
propagates (carrying the state so far). -/
def applyAnalyzer (st : WalkState) (out : AnalyzerOut)
    (push : FileResult → WalkState → WalkState) :
    Except (Str × WalkState) WalkState :=
  let st1 := { st with
    events := st.events ++ out.events
    calls := st.calls ++ out.calls }
  match out.result with
  | .error msg => .error (msg, st1)
  | .ok r => .ok (push r st1)

/-- One iteration of the walk loop of `analyze_repo` on entry `e`:
skip recognised linter-config names; otherwise count the file, emit the
progress and processing events, and dispatch on the file extension
(`.py`, `.js` with `.min.js` skipped, `.html`, `.css`, `.java`; any
other extension gets no further treatment). -/
def walkStep (oracle : Oracle) (total : Nat) (st : WalkState) (e : Entry) :
    Except (Str × WalkState) WalkState :=
  if e.name ∈ configNames then
    .ok { st with events := st.events ++ [.skipConfigLog e.name] }
  else
    let file_path := relPathOf e
    let rel_path := relPathOf e
    let st := { st with
      processed := st.processed + 1
      events := st.events ++
        [.progressStatus (st.processed + 1) total rel_path,
         .processingLog rel_path] }
    if endsWith pyExt e.name then
      applyAnalyzer st
        (analyze_python file_path rel_path
          (oracle.pylintRun file_path) (oracle.flake8Run file_path))
        (fun r s => { s with pythonResults := s.pythonResults ++ [r] })
    else if endsWith jsExt e.name then
      if endsWith minJsExt e.name then
        .ok { st with events := st.events ++ [.skipMinifiedLog rel_path] }
      else
        applyAnalyzer st
          (analyze_javascript file_path rel_path (oracle.eslintRun file_path))
          (fun r s => { s with javascriptResults := s.javascriptResults ++ [r] })
    else if endsWith htmlExt e.name then
      applyAnalyzer st
        (analyze_html file_path rel_path (oracle.htmlhintRun file_path))
        (fun r s => { s with htmlResults := s.htmlResults ++ [r] })
    else if endsWith cssExt e.name then
      applyAnalyzer st
        (analyze_css file_path rel_path (oracle.stylelintRun file_path))
        (fun r s => { s with cssResults := s.cssResults ++ [r] })
    else if endsWith javaExt e.name then
      applyAnalyzer st
        (analyze_java file_path rel_path (oracle.checkstyleRun file_path))
        (fun r s => { s with javaResults := s.javaResults ++ [r] })
    else
      .ok st

/-- A value of the returned report dictionary: the `Error` entry holds a
list of message strings, the per-language entries hold `FileResult`
lists. -/
inductive ReportValue where
  | messages (msgs : List Str)
  | fileResults (rs : List FileResult)
  deriving DecidableEq

/-- The report dictionary, as an insertion-ordered association list
(Python dicts preserve insertion order). -/
abbrev Report := List (Str × ReportValue)

def langPython : Str := "Python".toList
def langJavaScript : Str := "JavaScript".toList
def langHTML : Str := "HTML".toList
def langCSS : Str := "CSS".toList
def langJava : Str := "Java".toList
def errKey : Str := "Error".toList

/-- The `results` dict as returned after the walk: the five language
keys, in their initialisation order. -/
def assembleReport (st : WalkState) : Report :=
  [(langPython, .fileResults st.pythonResults),
   (langJavaScript, .fileResults st.javascriptResults),
   (langHTML, .fileResults st.htmlResults),
   (langCSS, .fileResults st.cssResults),
   (langJava, .fileResults st.javaResults)]

/-- Everything `analyze_repo` needs from the outside world for one run:
the URL, the outcome of `Repo.clone_from`, the files present in the
fresh checkout (in `os.walk` order), the config files available in the
built-in `config` directory, and the tool oracle. -/
structure RunInput where
  repo_url : Str
  cloneOutcome : Except Str Unit
  cloneFiles : List Entry
  builtinConfigs : List Str
  oracle : Oracle

/-- Observable outcome of one `analyze_repo` run: the returned report
(or a propagated exception), the event trace, the attempted tool
invocations, and whether the ephemeral workspace directory was removed
before control left the function. -/
structure RunOutput where
  result : Except Str Report
  events : List Event
  calls : List ToolCall
  workspaceRemoved : Bool
  deriving DecidableEq

/-- Initial walk state (counter zero, all five lists empty), with the
events emitted before the walk began. -/
def initState (evts : List Event) : WalkState :=
  { processed := 0
    pythonResults := []
    javascriptResults := []
    htmlResults := []
    cssResults := []
    javaResults := []
    events := evts
    calls := [] }

/-- Embedding of `analyze_repo` (`src/repo_analyzer.py`).  On clone
failure it returns the single-key error report without touching the
checkout (and without removing the workspace directory — the function
has no `finally`).  Otherwise it takes the recursive file count (before
`create_linter_configs` runs), provisions the configs, folds the walk
loop over the resulting file list, and removes the workspace only after
the loop completes normally; an exception escaping the loop propagates
with the workspace still on disk. -/
def analyze_repo (inp : RunInput) : RunOutput :=
  match inp.cloneOutcome with
  | .error e =>
    { result := .ok [(errKey, .messages [e])]
      events := [.cloningLog inp.repo_url, .cloneErrorLog e]
      calls := []
      workspaceRemoved := false }
  | .ok _ =>
    let total_files := inp.cloneFiles.length
    let walkFiles := create_linter_configs inp.builtinConfigs inp.cloneFiles
    let st0 := initState [.cloningLog inp.repo_url, .cloneCompleteStatus]
    match List.foldlM (walkStep inp.oracle total_files) st0 walkFiles with
    | .ok st =>
      { result := .ok (assembleReport st)
        events := st.events ++ [.cleanupLog]
        calls := st.calls
        workspaceRemoved := true }
    | .error (msg, st) =>
      { result := .error msg
        events := st.events
        calls := st.calls
        workspaceRemoved := false }

/-! ### Shared lemmas and concrete fixtures -/

/-- An oracle in which every tool invocation raises (for example, none
of the linters is installed). -/
def missingToolMsg : Str := "No such file or directory".toList

def noToolOracle : Oracle :=
  { pylintRun := fun _ => .raised missingToolMsg
    flake8Run := fun _ => .raised missingToolMsg
    eslintRun := fun _ => .raised missingToolMsg
    htmlhintRun := fun _ => .raised missingToolMsg
    stylelintRun := fun _ => .raised missingToolMsg
    checkstyleRun := fun _ => .raised missingToolMsg }

lemma analyze_repo_clone_error (inp : RunInput) (e : Str)
    (h : inp.cloneOutcome = .error e) :
    analyze_repo inp =
      { result := .ok [(errKey, .messages [e])]
        events := [.cloningLog inp.repo_url, .cloneErrorLog e]
        calls := []
        workspaceRemoved := false } := by
  simp [analyze_repo, h]

lemma analyze_repo_walk_ok (inp : RunInput) (u : Unit) (st : WalkState)
    (hc : inp.cloneOutcome = .ok u)
    (hw : List.foldlM (walkStep inp.oracle inp.cloneFiles.length)
        (initState [.cloningLog inp.repo_url, .cloneCompleteStatus])
        (create_linter_configs inp.builtinConfigs inp.cloneFiles) = .ok st) :
    analyze_repo inp =
      { result := .ok (assembleReport st)
        events := st.events ++ [.cleanupLog]
        calls := st.calls
        workspaceRemoved := true } := by
  simp [analyze_repo, hc, hw]

lemma analyze_repo_walk_error (inp : RunInput) (u : Unit) (msg : Str)
    (st : WalkState)
    (hc : inp.cloneOutcome = .ok u)
    (hw : List.foldlM (walkStep inp.oracle inp.cloneFiles.length)
        (initState [.cloningLog inp.repo_url, .cloneCompleteStatus])
        (create_linter_configs inp.builtinConfigs inp.cloneFiles)
        = .error (msg, st)) :
    analyze_repo inp =
      { result := .error msg
        events := st.events
        calls := st.calls
        workspaceRemoved := false } := by
  simp [analyze_repo, hc, hw]

lemma walkStep_config_eq (oracle : Oracle) (total : Nat) (st : WalkState)
    (e : Entry) (h : e.name ∈ configNames) :
    walkStep oracle total st e =
      .ok { st with events := st.events ++ [.skipConfigLog e.name] } := by
  simp [walkStep, h]

/-! ### Claim C1 -/

def c1Input : RunInput :=
  { repo_url := "u".toList
    cloneOutcome := .ok ()
    cloneFiles := [⟨[], "app.js".toList⟩]
    builtinConfigs := []
    oracle := noToolOracle }

/-- Claim C1 (code bug witnessed): the claim says every analyzer catches
exceptions and converts them to a failure `FileResult`, but
`analyze_javascript` has no `try`/`except`.  When the ESLint invocation
raises (executable missing), the exception propagates out of the
analyzer, aborts the whole `analyze_repo` run, and the workspace is
never cleaned up. -/
theorem c1_javascript_uncaught :
    (analyze_javascript "app.js".toList "app.js".toList
        (.raised missingToolMsg)).result = .error missingToolMsg ∧
    (analyze_repo c1Input).result = .error missingToolMsg ∧
    (analyze_repo c1Input).workspaceRemoved = false := by decide

/-! ### Claim C2 -/

def c2msg : Str := "repository not found".toList

def c2Input : RunInput :=
  { repo_url := "u".toList
    cloneOutcome := .error c2msg
    cloneFiles := []
    builtinConfigs := []
    oracle := noToolOracle }

/-- Claim C2 counterexample: on the clone-failure exit path the function
returns with the workspace directory still on disk (there is no
`finally`), contradicting the claim that the directory is removed on
every exit path. -/
theorem c2_cleanup_counterexample :
    (analyze_repo c2Input).result = .ok [(errKey, .messages [c2msg])] ∧
    ¬ (analyze_repo c2Input).workspaceRemoved = true := by decide

/-- Claim C2 (amended): the workspace directory is removed if and only
if the clone succeeded and the walk completed without a propagated
exception; on clone failure, and when an exception escapes the walk,
the function exits with the directory still present. -/
theorem c2_cleanup_amended (inp : RunInput) :
    (analyze_repo inp).workspaceRemoved = true ↔
      ((∃ u, inp.cloneOutcome = .ok u) ∧
       (∃ r, (analyze_repo inp).result = .ok r)) := by
  cases hc : inp.cloneOutcome with
  | error e =>
    rw [analyze_repo_clone_error inp e hc]
    constructor
    · intro hfalse; exact Bool.noConfusion hfalse
    · rintro ⟨⟨u, hu⟩, -⟩
      exact Except.noConfusion hu
  | ok u =>
    cases hw : List.foldlM (walkStep inp.oracle inp.cloneFiles.length)
        (initState [.cloningLog inp.repo_url, .cloneCompleteStatus])
        (create_linter_configs inp.builtinConfigs inp.cloneFiles) with
    | ok st =>
      rw [analyze_repo_walk_ok inp u st hc hw]
      exact ⟨fun _ => ⟨⟨u, rfl⟩, ⟨assembleReport st, rfl⟩⟩, fun _ => rfl⟩
    | error p =>
      rw [analyze_repo_walk_error inp u p.1 p.2 hc hw]
      constructor
      · intro hfalse; exact Bool.noConfusion hfalse
      · rintro ⟨-, ⟨r, hr⟩⟩
        exact Except.noConfusion hr

/-! ### Claim C3 -/

/-- Claim C3 (confirmed): whenever the clone step fails with message
`e`, the run returns exactly the single-entry report mapping the key
`Error` to the one-element list `[e]`; no tool is invoked and the only
events are the cloning log and the clone-error log (so no analyzer runs
and no per-language `FileResult` is produced). -/
theorem c3_clone_failure_report (inp : RunInput) (e : Str)
    (h : inp.cloneOutcome = .error e) :
    (analyze_repo inp).result = .ok [(errKey, .messages [e])] ∧
    (analyze_repo inp).calls = [] ∧
    (analyze_repo inp).events =
      [.cloningLog inp.repo_url, .cloneErrorLog e] := by
  rw [analyze_repo_clone_error inp e h]
  exact ⟨rfl, rfl, rfl⟩

/-- Witness for C3 at a concrete failing clone. -/
theorem c3_clone_failure_witness :
    c2Input.cloneOutcome = .error c2msg ∧
    (analyze_repo c2Input).result = .ok [(errKey, .messages [c2msg])] ∧
    (analyze_repo c2Input).calls = [] ∧
    (analyze_repo c2Input).events =
      [.cloningLog c2Input.repo_url, .cloneErrorLog c2msg] := by
  refine ⟨by decide, ?_⟩
  exact c3_clone_failure_report c2Input c2msg (by decide)

/-! ### Claim C6 -/

/-- Claim C6 (confirmed): a walk entry whose base name is one of the
four recognised config-artifact names — in any directory, including the
three names that end in `.js` — is never dispatched: the step leaves
the processed counter, all five result lists and the attempted tool
invocations unchanged, emitting only the skip log event. -/
theorem c6_config_skip (oracle : Oracle) (total : Nat) (st : WalkState)
    (e : Entry) (h : e.name ∈ configNames) :
    walkStep oracle total st e =
      .ok { st with events := st.events ++ [.skipConfigLog e.name] } :=
  walkStep_config_eq oracle total st e h

/-- Witness for C6: a config file named `eslintconfig.js` (which ends in
the `.js` source extension) in a subdirectory is skipped. -/
theorem c6_config_skip_witness :
    walkStep noToolOracle 3 (initState []) ⟨"sub/".toList, "eslintconfig.js".toList⟩ =
      .ok { initState [] with
        events := [.skipConfigLog "eslintconfig.js".toList] } :=
  c6_config_skip noToolOracle 3 (initState [])
    ⟨"sub/".toList, "eslintconfig.js".toList⟩ (by decide)

/-! ### Claim C10 -/

/-- Claim C10 (confirmed): on the Python analyzer's exception path the
substituted `FileResult` carries the rating `Error`, a value outside
the documented rating set. -/
theorem c10_error_rating (fp rp msg : Str) (plRun f8Run : ToolOutcome)
    (h : plRun = .raised msg ∨ f8Run = .raised msg) :
    ∃ r, (analyze_python fp rp plRun f8Run).result = .ok r ∧
      r.rating = some ratingError ∧
      ratingError ∉ [ratingGood, ratingNeedsImprovement, ratingPoor] := by
  have hne : ratingError ∉ [ratingGood, ratingNeedsImprovement, ratingPoor] := by
    decide
  cases plRun with
  | raised m => exact ⟨pyFailResult rp m, rfl, rfl, hne⟩
  | completed pl =>
    cases f8Run with
    | raised m => exact ⟨pyFailResult rp m, rfl, rfl, hne⟩
    | completed f8 =>
      rcases h with h | h
      · exact (ToolOutcome.noConfusion h)
      · exact (ToolOutcome.noConfusion h)

/-- Witness for C10 at a concrete raised Pylint invocation. -/
theorem c10_error_rating_witness :
    ∃ r, (analyze_python "m.py".toList "m.py".toList
        (.raised missingToolMsg) (.raised missingToolMsg)).result = .ok r ∧
      r.rating = some ratingError ∧
      ratingError ∉ [ratingGood, ratingNeedsImprovement, ratingPoor] :=
  c10_error_rating "m.py".toList "m.py".toList missingToolMsg
    (.raised missingToolMsg) (.raised missingToolMsg) (Or.inl rfl)

/-! ### Claim C8 -/

/-- Claim C8 (confirmed): for a completed Checkstyle invocation, the
Java `FileResult` selects stdout only at exit code exactly 0 and stderr
otherwise (in particular exit code 1 routes to stderr), counting
occurrences of the literals `ERROR` and `WARN` in the selected text —
whereas every other analyzer still takes stdout at exit code 1. -/
theorem c8_java_exit_codes (fp rp : Str) (p q : ProcOutcome)
    (hq : q.returncode = 1) :
    (∃ r, (analyze_java fp rp (.completed p)).result = .ok r ∧
      r.issues = (if p.returncode = 0 then p.stdout else p.stderr) ∧
      r.error_count = countSub litERROR r.issues ∧
      r.warning_count = countSub litWARN r.issues) ∧
    (∃ r, (analyze_java fp rp (.completed q)).result = .ok r ∧
      r.issues = q.stderr) ∧
    (∃ r, (analyze_html fp rp (.completed q)).result = .ok r ∧
      r.issues = q.stdout) ∧
    (∃ r, (analyze_css fp rp (.completed q)).result = .ok r ∧
      r.issues = q.stdout) ∧
    (endsWith minJsExt fp = false →
      ∃ r, (analyze_javascript fp rp (.completed q)).result = .ok r ∧
        r.issues = pyStrip q.stdout) ∧
    (∃ r, (analyze_python fp rp (.completed q) (.completed q)).result = .ok r ∧
      r.issues = pylintIssuesHeader ++ q.stdout ++
        flake8IssuesHeader ++ pyStrip q.stdout) := by
  have hq01 : q.returncode = 0 ∨ q.returncode = 1 := Or.inr hq
  have hqne0 : ¬ q.returncode = 0 := by rw [hq]; decide
  refine ⟨?_, ?_, ?_, ?_, ?_, ?_⟩
  · exact ⟨_, rfl, rfl, rfl, rfl⟩
  · exact ⟨_, rfl, if_neg hqne0⟩
  · exact ⟨_, rfl, if_pos hq01⟩
  · exact ⟨_, rfl, if_pos hq01⟩
  · intro hfp
    simp only [analyze_javascript]
    rw [if_neg (by simp [hfp])]
    exact ⟨_, rfl, rfl⟩
  · refine ⟨_, rfl, ?_⟩
    show pylintIssuesHeader ++ pylint_issues q ++
        flake8IssuesHeader ++ flake8_issues q = _
    rw [pylint_issues, if_pos hq01]
    rfl

/-- Witness for C8 at concrete completed invocations (exit codes 2 and
1). -/
theorem c8_java_exit_codes_witness :
    (⟨"o".toList, "e".toList, 1⟩ : ProcOutcome).returncode = 1 ∧
    ((∃ r, (analyze_java "A.java".toList "A.java".toList
        (.completed ⟨"po".toList, "pe".toList, 2⟩)).result = .ok r ∧
      r.issues = (if (⟨"po".toList, "pe".toList, 2⟩ : ProcOutcome).returncode = 0
        then ("po".toList : Str) else "pe".toList) ∧
      r.error_count = countSub litERROR r.issues ∧
      r.warning_count = countSub litWARN r.issues) ∧
    (∃ r, (analyze_java "A.java".toList "A.java".toList
        (.completed ⟨"o".toList, "e".toList, 1⟩)).result = .ok r ∧
      r.issues = "e".toList)) := by
  refine ⟨rfl, ?_⟩
  have h := c8_java_exit_codes "A.java".toList "A.java".toList
    ⟨"po".toList, "pe".toList, 2⟩ ⟨"o".toList, "e".toList, 1⟩ rfl
  exact ⟨h.1, h.2.1⟩

/-! ### Claim C4 -/

/-- Definition following the claim's words (not the source): the number
of non-empty lines of a text.  Used only to compare the claim's
description of the Flake8 contribution with what the code computes. -/
def specNonEmptyLineCount (s : Str) : Nat :=
  ((splitlines s).filter (fun l => !l.isEmpty)).length

def c4pylintOut : ProcOutcome := { stdout := [], stderr := [], returncode := 0 }

def c4flake8Out : ProcOutcome :=
  { stdout := "a\n\nb".toList, stderr := [], returncode := 1 }

/-- Claim C4 counterexample: with empty Pylint output and Flake8 stdout
containing an interior blank line, the code counts every line of the
stripped output (3) while the claim predicts the number of non-empty
lines (2). -/
theorem c4_python_counterexample :
    ((analyze_python "m.py".toList "m.py".toList (.completed c4pylintOut)
        (.completed c4flake8Out)).result.toOption.map FileResult.error_count
      = some 3) ∧
    (countSub errorLower c4pylintOut.stdout + countSub errorUpper c4pylintOut.stdout
      + specNonEmptyLineCount c4flake8Out.stdout = 2) ∧
    ¬ ((analyze_python "m.py".toList "m.py".toList (.completed c4pylintOut)
        (.completed c4flake8Out)).result.toOption.map FileResult.error_count
      = some (countSub errorLower c4pylintOut.stdout
        + countSub errorUpper c4pylintOut.stdout
        + specNonEmptyLineCount c4flake8Out.stdout)) := by decide

/-- The `flake8_error_count` guard collapses: counting the lines of the
stripped output, with 0 for the empty case, is the same as the plain
line count (an empty text splits into no lines). -/
lemma flake8_error_count_eq (f8 : ProcOutcome) :
    flake8_error_count f8 = (splitlines (pyStrip f8.stdout)).length := by
  unfold flake8_error_count flake8_issues
  by_cases hs : pyStrip f8.stdout = []
  · rw [if_neg (by simp [hs]), hs]
    rfl
  · rw [if_pos hs]

/-- Case analysis of the Python rating computation: `Good` exactly
requires both counts zero, more than five errors is `Poor`, and
everything else is `Needs Improvement`. -/
lemma pythonRating_cases (e w : Nat) :
    (e = 0 ∧ w = 0 → pythonRating e w = ratingGood) ∧
    (e > 5 → pythonRating e w = ratingPoor) ∧
    (¬ (e = 0 ∧ w = 0) → ¬ e > 5 → pythonRating e w = ratingNeedsImprovement) := by
  refine ⟨?_, ?_, ?_⟩
  · rintro ⟨h1, h2⟩
    subst h1; subst h2
    rfl
  · intro h5
    unfold pythonRating
    rw [if_pos h5]
  · intro hnz h5
    unfold pythonRating
    rw [if_neg h5]
    simp only [if_neg hnz]

/-- Claim C4 (amended): for a Python file analyzed with both tool
invocations completing, the result's issues text, counts and rating are
as the claim states, except that the Flake8 contribution to
`error_count` is the number of lines of Flake8's stdout after stripping
surrounding whitespace (interior blank lines included), not the number
of non-empty lines. -/
theorem c4_python_amended (fp rp : Str) (pl f8 : ProcOutcome) :
    ∃ r, (analyze_python fp rp (.completed pl) (.completed f8)).result = .ok r ∧
      r.issues = pylintIssuesHeader ++
        (if pl.returncode = 0 ∨ pl.returncode = 1 then pl.stdout else pl.stderr) ++
        flake8IssuesHeader ++ pyStrip f8.stdout ∧
      r.error_count = countSub errorLower (pylint_issues pl)
        + countSub errorUpper (pylint_issues pl)
        + (splitlines (pyStrip f8.stdout)).length ∧
      r.warning_count = countSub warningLower (pylint_issues pl)
        + countSub warningUpper (pylint_issues pl) ∧
      (r.error_count = 0 ∧ r.warning_count = 0 → r.rating = some ratingGood) ∧
      (r.error_count > 5 → r.rating = some ratingPoor) ∧
      (¬ (r.error_count = 0 ∧ r.warning_count = 0) → ¬ r.error_count > 5 →
        r.rating = some ratingNeedsImprovement) := by
  refine ⟨_, rfl, rfl, ?_, ?_, ?_, ?_, ?_⟩
  · show pylint_error_count pl + flake8_error_count f8 = _
    rw [flake8_error_count_eq]
    rfl
  · show pylint_warning_count pl + 0 = _
    rw [Nat.add_zero]
    rfl
  · exact fun hz => congrArg some ((pythonRating_cases _ _).1 ⟨hz.1, hz.2⟩)
  · exact fun h5 => congrArg some ((pythonRating_cases _ _).2.1 h5)
  · exact fun hnz h5 => congrArg some ((pythonRating_cases _ _).2.2 hnz h5)

def c4wPl : ProcOutcome := { stdout := "w".toList, stderr := [], returncode := 0 }

def c4wF8 : ProcOutcome := { stdout := "x:1: E1\n".toList, stderr := [], returncode := 1 }

/-- Witness for C4 at a concrete pair of completed invocations. -/
theorem c4_python_witness :
    ∃ r, (analyze_python "m.py".toList "m.py".toList (.completed c4wPl)
        (.completed c4wF8)).result = .ok r ∧
      r.issues = pylintIssuesHeader ++
        (if c4wPl.returncode = 0 ∨ c4wPl.returncode = 1
          then c4wPl.stdout else c4wPl.stderr) ++
        flake8IssuesHeader ++ pyStrip c4wF8.stdout ∧
      r.error_count = countSub errorLower (pylint_issues c4wPl)
        + countSub errorUpper (pylint_issues c4wPl)
        + (splitlines (pyStrip c4wF8.stdout)).length ∧
      r.warning_count = countSub warningLower (pylint_issues c4wPl)
        + countSub warningUpper (pylint_issues c4wPl) ∧
      (r.error_count = 0 ∧ r.warning_count = 0 → r.rating = some ratingGood) ∧
      (r.error_count > 5 → r.rating = some ratingPoor) ∧
      (¬ (r.error_count = 0 ∧ r.warning_count = 0) → ¬ r.error_count > 5 →
        r.rating = some ratingNeedsImprovement) :=
  c4_python_amended "m.py".toList "m.py".toList c4wPl c4wF8

/-! ### Claim C5 -/

lemma startsWith_append (p q l : Str) (h : startsWith (p ++ q) l = true) :
    startsWith p l = true := by
  induction p generalizing l with
  | nil => rfl
  | cons a as ih =>
    cases l with
    | nil => exact absurd h (by simp [startsWith])
    | cons b bs =>
      simp only [List.cons_append, startsWith, Bool.and_eq_true] at h ⊢
      exact ⟨h.1, ih bs h.2⟩

lemma startsWith_head {a b : Char} {as bs l : Str}
    (h1 : startsWith (a :: as) l = true) (h2 : startsWith (b :: bs) l = true) :
    a = b := by
  cases l with
  | nil => exact absurd h1 (by simp [startsWith])
  | cons c cs =>
    simp only [startsWith, Bool.and_eq_true, beq_iff_eq] at h1 h2
    rw [h1.1, h2.1]

/-- A name ending in `.min.js` is not one of the four config-artifact
names. -/
lemma minjs_not_config {n : Str} (h : endsWith minJsExt n = true) :
    n ∉ configNames := by
  intro hmem
  simp only [configNames, List.mem_cons, List.mem_singleton,
    List.not_mem_nil, or_false] at hmem
  rcases hmem with h1 | h1 | h1 | h1 <;> subst h1 <;> exact absurd h (by decide)

/-- A name ending in `.min.js` also ends in `.js`. -/
lemma minjs_endsWith_js {n : Str} (h : endsWith minJsExt n = true) :
    endsWith jsExt n = true := by
  unfold endsWith at h ⊢
  have key : minJsExt.reverse = jsExt.reverse ++ "nim.".toList := by decide
  rw [key] at h
  exact startsWith_append _ _ _ h

/-- A name ending in `.min.js` does not end in `.py`. -/
lemma minjs_not_py {n : Str} (h : endsWith minJsExt n = true) :
    endsWith pyExt n = false := by
  cases hpy : endsWith pyExt n with
  | false => rfl
  | true =>
    unfold endsWith at h hpy
    rw [show minJsExt.reverse = 's' :: "j.nim.".toList from by decide] at h
    rw [show pyExt.reverse = 'y' :: "p.".toList from by decide] at hpy
    exact absurd (startsWith_head h hpy) (by decide)

/-- Claim C5 (amended): a walk entry whose name ends in `.min.js` is
never dispatched — its step appends no `FileResult` to any language
list and attempts no tool invocation — and the events emitted for it
are the generic progress and processing events (the file is counted in
the processed numerator) followed by the skip log event. -/
theorem c5_minjs_amended (oracle : Oracle) (total : Nat) (st : WalkState)
    (e : Entry) (h : endsWith minJsExt e.name = true) :
    walkStep oracle total st e = .ok { st with
      processed := st.processed + 1
      events := st.events ++
        [.progressStatus (st.processed + 1) total (relPathOf e),
         .processingLog (relPathOf e),
         .skipMinifiedLog (relPathOf e)] } := by
  have hnc : e.name ∉ configNames := minjs_not_config h
  have hpy : endsWith pyExt e.name = false := minjs_not_py h
  have hjs : endsWith jsExt e.name = true := minjs_endsWith_js h
  simp [walkStep, hnc, hpy, hjs, h, List.append_assoc]

/-- Which trace events mention a given relative path or name. -/
def eventMentions (p : Str) : Event → Bool
  | .progressStatus _ _ rp => rp == p
  | .processingLog rp => rp == p
  | .skipMinifiedLog rp => rp == p
  | .skipConfigLog n => n == p
  | .jsSkipMinifiedLog fp => fp == p
  | .pyDoneLog rp => rp == p
  | .jsDoneLog rp => rp == p
  | .htmlDoneLog rp => rp == p
  | .cssDoneLog rp => rp == p
  | .javaDoneLog rp => rp == p
  | _ => false

def c5Input : RunInput :=
  { repo_url := "u".toList
    cloneOutcome := .ok ()
    cloneFiles := [⟨[], "app.min.js".toList⟩]
    builtinConfigs := []
    oracle := noToolOracle }

/-- Claim C5 counterexample: for a run over a single `.min.js` file, no
`FileResult` is appended and no tool is invoked — but the skip log is
not the only event emitted for the file: the progress event (which
counts it in the numerator) and the processing log precede it. -/
theorem c5_minjs_counterexample :
    ((analyze_repo c5Input).calls = []) ∧
    ((analyze_repo c5Input).result = .ok
      [(langPython, .fileResults []), (langJavaScript, .fileResults []),
       (langHTML, .fileResults []), (langCSS, .fileResults []),
       (langJava, .fileResults [])]) ∧
    ((analyze_repo c5Input).events.filter (eventMentions "app.min.js".toList) =
      [.progressStatus 1 1 "app.min.js".toList,
       .processingLog "app.min.js".toList,
       .skipMinifiedLog "app.min.js".toList]) ∧
    ¬ ((analyze_repo c5Input).events.filter (eventMentions "app.min.js".toList) =
      [.skipMinifiedLog "app.min.js".toList]) := by decide

/-- Witness for C5 at a concrete `.min.js` entry. -/
theorem c5_minjs_witness :
    endsWith minJsExt "app.min.js".toList = true ∧
    walkStep noToolOracle 1 (initState []) ⟨[], "app.min.js".toList⟩ =
      .ok { initState [] with
        processed := 1
        events := [.progressStatus 1 1 "app.min.js".toList,
          .processingLog "app.min.js".toList,
          .skipMinifiedLog "app.min.js".toList] } :=
  ⟨by decide,
    c5_minjs_amended noToolOracle 1 (initState []) ⟨[], "app.min.js".toList⟩
      (by decide)⟩

/-! ### Claim C7 -/

/-- The numerator/denominator pairs of the progress events of a trace,
in emission order. -/
def progressNums (evts : List Event) : List (Nat × Nat) :=
  evts.filterMap (fun ev => match ev with
    | .progressStatus p t _ => some (p, t)
    | _ => none)

/-- The number of walk entries that are not config artifacts — exactly
the entries the walk loop counts in `processed`. -/
def nonConfigCount (entries : List Entry) : Nat :=
  (entries.filter (fun e => !decide (e.name ∈ configNames))).length

lemma progressNums_append (a b : List Event) :
    progressNums (a ++ b) = progressNums a ++ progressNums b := by
  simp [progressNums]

lemma progressNums_python (fp rp : Str) (a b : ToolOutcome) :
    progressNums (analyze_python fp rp a b).events = [] := by
  cases a <;> cases b <;> rfl

lemma progressNums_js (fp rp : Str) (a : ToolOutcome) :
    progressNums (analyze_javascript fp rp a).events = [] := by
  unfold analyze_javascript
  by_cases hm : endsWith minJsExt fp = true
  · rw [if_pos hm]
    rfl
  · rw [if_neg hm]
    cases a <;> rfl

/-- The progress pairs of the events a non-config step emits before and
during dispatch: the step's own progress and processing events followed
by analyzer events containing no progress event. -/
lemma progressNums_step_events (stE : List Event) (p total : Nat) (rel : Str)
    (out : List Event) (hout : progressNums out = []) :
    progressNums ((stE ++ [.progressStatus p total rel, .processingLog rel]) ++ out) =
      progressNums stE ++ [(p, total)] := by
  rw [progressNums_append, hout, List.append_nil, progressNums_append]
  rfl

/-- Variant of `progressNums_step_events` for branches that append no
analyzer events. -/
lemma progressNums_step_events0 (stE : List Event) (p total : Nat) (rel : Str) :
    progressNums (stE ++ [.progressStatus p total rel, .processingLog rel]) =
      progressNums stE ++ [(p, total)] := by
  rw [progressNums_append]
  rfl

lemma progressNums_html (fp rp : Str) (a : ToolOutcome) :
    progressNums (analyze_html fp rp a).events = [] := by
  cases a <;> rfl

lemma progressNums_css (fp rp : Str) (a : ToolOutcome) :
    progressNums (analyze_css fp rp a).events = [] := by
  cases a <;> rfl

lemma progressNums_java (fp rp : Str) (a : ToolOutcome) :
    progressNums (analyze_java fp rp a).events = [] := by
  cases a <;> rfl

lemma applyAnalyzer_ok {st : WalkState} {out : AnalyzerOut}
    {push : FileResult → WalkState → WalkState} {st' : WalkState}
    (h : applyAnalyzer st out push = .ok st') :
    ∃ r, out.result = .ok r ∧
      st' = push r { st with
        events := st.events ++ out.events
        calls := st.calls ++ out.calls } := by
  unfold applyAnalyzer at h
  cases hr : out.result with
  | error m =>
    rw [hr] at h
    exact Except.noConfusion h
  | ok r =>
    rw [hr] at h
    exact ⟨r, rfl, (Except.ok.inj h).symm⟩

/-- Shape of one successful walk step: a config entry changes neither
the counter nor the emitted progress pairs; any other entry bumps the
counter by one and emits exactly one progress pair, whose numerator is
the new counter value and whose denominator is `total`. -/
lemma walkStep_ok_progress (oracle : Oracle) (total : Nat) (st : WalkState)
    (e : Entry) (st' : WalkState) (h : walkStep oracle total st e = .ok st') :
    (e.name ∈ configNames ∧ st'.processed = st.processed ∧
      progressNums st'.events = progressNums st.events) ∨
    (e.name ∉ configNames ∧ st'.processed = st.processed + 1 ∧
      progressNums st'.events =
        progressNums st.events ++ [(st.processed + 1, total)]) := by
  by_cases hc : e.name ∈ configNames
  · left
    rw [walkStep_config_eq oracle total st e hc] at h
    obtain rfl := (Except.ok.inj h)
    refine ⟨hc, rfl, ?_⟩
    rw [progressNums_append,
      show progressNums [Event.skipConfigLog e.name] = [] from rfl,
      List.append_nil]
  · right
    refine ⟨hc, ?_⟩
    simp only [walkStep, if_neg hc] at h
    split at h
    · obtain ⟨r, -, rfl⟩ := applyAnalyzer_ok h
      exact ⟨rfl, progressNums_step_events st.events _ total _ _
        (progressNums_python _ _ _ _)⟩
    · split at h
      · split at h
        · obtain rfl := (Except.ok.inj h)
          exact ⟨rfl, progressNums_step_events st.events _ total _
            [.skipMinifiedLog (relPathOf e)] rfl⟩
        · obtain ⟨r, -, rfl⟩ := applyAnalyzer_ok h
          exact ⟨rfl, progressNums_step_events st.events _ total _ _
            (progressNums_js _ _ _)⟩
      · split at h
        · obtain ⟨r, -, rfl⟩ := applyAnalyzer_ok h
          exact ⟨rfl, progressNums_step_events st.events _ total _ _
            (progressNums_html _ _ _)⟩
        · split at h
          · obtain ⟨r, -, rfl⟩ := applyAnalyzer_ok h
            exact ⟨rfl, progressNums_step_events st.events _ total _ _
              (progressNums_css _ _ _)⟩
          · split at h
            · obtain ⟨r, -, rfl⟩ := applyAnalyzer_ok h
              exact ⟨rfl, progressNums_step_events st.events _ total _ _
                (progressNums_java _ _ _)⟩
            · obtain rfl := (Except.ok.inj h)
              exact ⟨rfl, progressNums_step_events0 st.events _ total _⟩

lemma progress_range_cons (k p total : Nat) :
    (p + 1, total) :: (List.range k).map (fun i => (p + 1 + 1 + i, total)) =
      (List.range (k + 1)).map (fun i => (p + 1 + i, total)) := by
  have hfun : ((fun i => (p + 1 + i, total)) ∘ Nat.succ) =
      (fun i => (p + 1 + 1 + i, total)) := by
    funext i
    simp only [Function.comp_apply]
    congr 1
    omega
  rw [List.range_succ_eq_map, List.map_cons, List.map_map, hfun]

/-- Invariant of the whole walk: on normal completion, the processed
counter has grown by the number of non-config entries, and the progress
pairs emitted are `(old + 1, total), (old + 2, total), …`, one per
non-config entry (dispatched or not). -/
lemma foldlM_walkStep_ok (oracle : Oracle) (total : Nat) :
    ∀ (entries : List Entry) (st st' : WalkState),
      List.foldlM (walkStep oracle total) st entries = .ok st' →
      st'.processed = st.processed + nonConfigCount entries ∧
      progressNums st'.events = progressNums st.events ++
        (List.range (nonConfigCount entries)).map
          (fun i => (st.processed + 1 + i, total))
  | [], st, st', h => by
    rw [List.foldlM_nil] at h
    obtain rfl := (Except.ok.inj h)
    simp [nonConfigCount]
  | e :: rest, st, st', h => by
    rw [List.foldlM_cons] at h
    cases hstep : walkStep oracle total st e with
    | error p =>
      rw [hstep] at h
      exact Except.noConfusion h
    | ok st1 =>
      rw [hstep] at h
      have h' : List.foldlM (walkStep oracle total) st1 rest = .ok st' := h
      obtain ⟨hp, hpn⟩ := foldlM_walkStep_ok oracle total rest st1 st' h'
      rcases walkStep_ok_progress oracle total st e st1 hstep with
        ⟨hcfg, hp1, hpn1⟩ | ⟨hcfg, hp1, hpn1⟩
      · have hcount : nonConfigCount (e :: rest) = nonConfigCount rest := by
          simp [nonConfigCount, List.filter_cons, hcfg]
        refine ⟨?_, ?_⟩
        · rw [hcount, hp, hp1]
        · rw [hcount, hpn, hpn1]
          simp only [hp1]
      · have hcount : nonConfigCount (e :: rest) = nonConfigCount rest + 1 := by
          simp [nonConfigCount, List.filter_cons, hcfg]
        refine ⟨?_, ?_⟩
        · rw [hcount, hp, hp1]
          omega
        · rw [hcount, hpn, hpn1]
          simp only [hp1]
          rw [List.append_assoc, List.singleton_append, progress_range_cons]

def c7Input : RunInput :=
  { repo_url := "u".toList
    cloneOutcome := .ok ()
    cloneFiles := [⟨[], "a.min.js".toList⟩]
    builtinConfigs := [".pylintrc".toList]
    oracle := noToolOracle }

/-- Claim C7 counterexample: with one cloned `.min.js` file and one
provisioned config, the workspace holds 2 files when walking begins,
yet the only progress event is `(1, 1)` — its denominator excludes the
provisioned config artifact (the count is taken before provisioning),
and its numerator counts the skipped, never-dispatched `.min.js`
file. -/
theorem c7_progress_counterexample :
    ((analyze_repo c7Input).events =
      [.cloningLog "u".toList, .cloneCompleteStatus,
       .progressStatus 1 1 "a.min.js".toList, .processingLog "a.min.js".toList,
       .skipMinifiedLog "a.min.js".toList, .skipConfigLog ".pylintrc".toList,
       .cleanupLog]) ∧
    ((create_linter_configs c7Input.builtinConfigs c7Input.cloneFiles).length = 2) ∧
    (progressNums (analyze_repo c7Input).events = [(1, 1)]) ∧
    ¬ ((1, 2) ∈ progressNums (analyze_repo c7Input).events) ∧
    ((analyze_repo c7Input).calls = []) := by decide

/-- Claim C7 (amended): in every completed run the progress events are
`(1, total), (2, total), …`, one per non-config walk entry — so the
numerator counts every non-config file, including skipped `.min.js`
files and files with no matching extension, while the shared
denominator `total` is the file count of the workspace taken before
`create_linter_configs` runs, hence excluding freshly provisioned
config artifacts. -/
theorem c7_progress_amended (inp : RunInput) (u : Unit) (r : Report)
    (hc : inp.cloneOutcome = .ok u)
    (hr : (analyze_repo inp).result = .ok r) :
    progressNums (analyze_repo inp).events =
      (List.range (nonConfigCount
          (create_linter_configs inp.builtinConfigs inp.cloneFiles))).map
        (fun i => (i + 1, inp.cloneFiles.length)) := by
  cases hw : List.foldlM (walkStep inp.oracle inp.cloneFiles.length)
      (initState [.cloningLog inp.repo_url, .cloneCompleteStatus])
      (create_linter_configs inp.builtinConfigs inp.cloneFiles) with
  | error p =>
    rw [analyze_repo_walk_error inp u p.1 p.2 hc hw] at hr
    exact Except.noConfusion hr
  | ok st =>
    rw [analyze_repo_walk_ok inp u st hc hw]
    obtain ⟨-, hpn⟩ := foldlM_walkStep_ok inp.oracle inp.cloneFiles.length
      (create_linter_configs inp.builtinConfigs inp.cloneFiles)
      (initState [.cloningLog inp.repo_url, .cloneCompleteStatus]) st hw
    show progressNums (st.events ++ [Event.cleanupLog]) = _
    rw [progressNums_append,
      show progressNums [Event.cleanupLog] = [] from rfl,
      List.append_nil, hpn,
      show progressNums (initState
        [Event.cloningLog inp.repo_url, Event.cloneCompleteStatus]).events = []
        from rfl,
      List.nil_append]
    have hfun : (fun i => ((initState [Event.cloningLog inp.repo_url,
        Event.cloneCompleteStatus]).processed + 1 + i,
          inp.cloneFiles.length)) =
        (fun i : Nat => (i + 1, inp.cloneFiles.length)) := by
      funext i
      show (0 + 1 + i, inp.cloneFiles.length) = (i + 1, inp.cloneFiles.length)
      congr 1
      omega
    rw [hfun]

def c7wInput : RunInput :=
  { repo_url := "u".toList
    cloneOutcome := .ok ()
    cloneFiles := [⟨[], "notes.txt".toList⟩]
    builtinConfigs := []
    oracle := noToolOracle }

def c7wReport : Report :=
  [(langPython, .fileResults []), (langJavaScript, .fileResults []),
   (langHTML, .fileResults []), (langCSS, .fileResults []),
   (langJava, .fileResults [])]

/-- Witness for C7 at a concrete completed run. -/
theorem c7_progress_witness :
    c7wInput.cloneOutcome = .ok () ∧
    (analyze_repo c7wInput).result = .ok c7wReport ∧
    progressNums (analyze_repo c7wInput).events =
      (List.range (nonConfigCount
          (create_linter_configs c7wInput.builtinConfigs c7wInput.cloneFiles))).map
        (fun i => (i + 1, c7wInput.cloneFiles.length)) := by
  refine ⟨by decide, by decide, ?_⟩
  exact c7_progress_amended c7wInput () c7wReport (by decide) (by decide)

/-! ### Claim C9 -/

/-- Claim C9 (confirmed): when the clone succeeds and a report is
returned, it has exactly the five language keys, in initialisation
order, each mapped to a `FileResult` list (possibly empty), and never
carries the `Error` key. -/
theorem c9_report_keys (inp : RunInput) (u : Unit) (r : Report)
    (hc : inp.cloneOutcome = .ok u)
    (hr : (analyze_repo inp).result = .ok r) :
    r.map Prod.fst = [langPython, langJavaScript, langHTML, langCSS, langJava] ∧
    (∀ p ∈ r, ∃ l, p.2 = ReportValue.fileResults l) ∧
    (∀ p ∈ r, p.1 ≠ errKey) := by
  cases hw : List.foldlM (walkStep inp.oracle inp.cloneFiles.length)
      (initState [.cloningLog inp.repo_url, .cloneCompleteStatus])
      (create_linter_configs inp.builtinConfigs inp.cloneFiles) with
  | error p =>
    rw [analyze_repo_walk_error inp u p.1 p.2 hc hw] at hr
    exact Except.noConfusion hr
  | ok st =>
    rw [analyze_repo_walk_ok inp u st hc hw] at hr
    obtain rfl : assembleReport st = r := Except.ok.inj hr
    refine ⟨rfl, ?_, ?_⟩
    · intro p hp
      simp only [assembleReport, List.mem_cons, List.not_mem_nil,
        or_false] at hp
      rcases hp with rfl | rfl | rfl | rfl | rfl <;> exact ⟨_, rfl⟩
    · intro p hp
      simp only [assembleReport, List.mem_cons, List.not_mem_nil,
        or_false] at hp
      rcases hp with rfl | rfl | rfl | rfl | rfl
      · exact (by decide : langPython ≠ errKey)
      · exact (by decide : langJavaScript ≠ errKey)
      · exact (by decide : langHTML ≠ errKey)
      · exact (by decide : langCSS ≠ errKey)
      · exact (by decide : langJava ≠ errKey)

def c9wInput : RunInput :=
  { repo_url := "u".toList
    cloneOutcome := .ok ()
    cloneFiles := []
    builtinConfigs := []
    oracle := noToolOracle }

def c9wReport : Report :=
  [(langPython, .fileResults []), (langJavaScript, .fileResults []),
   (langHTML, .fileResults []), (langCSS, .fileResults []),
   (langJava, .fileResults [])]

/-- Witness for C9 at a concrete empty repository: every language key
is present, mapped to the empty list. -/
theorem c9_report_keys_witness :
    c9wInput.cloneOutcome = .ok () ∧
    (analyze_repo c9wInput).result = .ok c9wReport ∧
    (c9wReport.map Prod.fst =
      [langPython, langJavaScript, langHTML, langCSS, langJava] ∧
    (∀ p ∈ c9wReport, ∃ l, p.2 = ReportValue.fileResults l) ∧
    (∀ p ∈ c9wReport, p.1 ≠ errKey)) := by
  refine ⟨by decide, by decide, ?_⟩
  exact c9_report_keys c9wInput () c9wReport (by decide) (by decide)

end AutoCodeGuard
